import Mathlib

/-!
Verification of the order server (`server.js`): a shallow embedding of the
session store, the order repository (normalization, transactional create,
status update), and the SSE event hub, together with proofs of the spec's
testable properties.

JSON request bodies are modelled by `JVal`; JS numbers are modelled by exact
fractions (`JNum`), with `Option JNum` standing for possibly-NaN results of
coercion (`none` = NaN). Non-finite doubles (Infinity from overflowing
literals) and radix-prefixed string literals are outside the model.
-/

/-- An exact finite JavaScript number, kept as an explicit fraction
`num / den` with positive denominator by construction (denormalized so that
every operation the embedding needs is plain integer arithmetic). -/
structure JNum where
  num : ℤ
  den : ℤ
deriving DecidableEq, Repr

/-- Values a parsed JSON body (or a missing property access) can take.
`undefined` models the JS undefined value, produced by property access misses. -/
inductive JVal where
  | undefined : JVal
  | null : JVal
  | bool : Bool → JVal
  | num : JNum → JVal
  | str : String → JVal
  | arr : List JVal → JVal
  | obj : List (String × JVal) → JVal

/-- JavaScript truthiness of a value (`Boolean(v)`). -/
def truthy : JVal → Bool
  | .undefined => false
  | .null => false
  | .bool b => b
  | .num q => decide (q.num ≠ 0)
  | .str s => decide (s ≠ "")
  | .arr _ => true
  | .obj _ => true

/-- JavaScript `a && b`: returns `a` when `a` is falsy, else `b`. -/
def jand (a b : JVal) : JVal := if truthy a then b else a

/-- JavaScript `a || b`: returns `a` when `a` is truthy, else `b`. -/
def jor (a b : JVal) : JVal := if truthy a then a else b

/-- JavaScript property access `v.k`: a miss (or access on a non-object)
yields `undefined`. -/
def jfield : JVal → String → JVal
  | .obj fs, k => match fs.lookup k with
    | some v => v
    | none => .undefined
  | _, _ => .undefined

/-- Decimal rendering of a `JNum`; JavaScript's double-to-string algorithm is
floating-point-specified, so whole numbers are rendered exactly and other
fractions by an explicit fraction form (no claim depends on this rendering). -/
def jnumToString (q : JNum) : String :=
  if q.den = 1 then toString q.num else toString q.num ++ "/" ++ toString q.den

mutual

/-- JavaScript `String(v)` conversion. Arrays join their elements with
commas, `null`/`undefined` elements becoming empty (Array.prototype.toString);
objects print as the generic object tag. -/
def jvalToString : JVal → String
  | .undefined => "undefined"
  | .null => "null"
  | .bool b => cond b "true" "false"
  | .num q => jnumToString q
  | .str s => s
  | .obj _ => "[object Object]"
  | .arr xs => jvalElemsToString xs

/-- Comma-joined rendering of an array's elements, with `null`/`undefined`
elements rendered empty. -/
def jvalElemsToString : List JVal → String
  | [] => ""
  | [.null] => ""
  | [.undefined] => ""
  | [x] => jvalToString x
  | .null :: rest => "," ++ jvalElemsToString rest
  | .undefined :: rest => "," ++ jvalElemsToString rest
  | x :: rest => jvalToString x ++ "," ++ jvalElemsToString rest

end

/-- Whitespace trim at both ends (JS `String.prototype.trim`), charwise. -/
def jsTrim (cs : List Char) : List Char :=
  ((cs.dropWhile Char.isWhitespace).reverse.dropWhile Char.isWhitespace).reverse

/-- Numeric value of the digits of a decimal string. -/
def digitsVal (cs : List Char) : ℕ :=
  cs.foldl (fun a c => 10 * a + (c.toNat - 48)) 0

/-- Splits a character list into its leading run of decimal digits and the
rest. -/
def spanDigits (cs : List Char) : List Char × List Char :=
  (cs.takeWhile (fun c => c.isDigit), cs.dropWhile (fun c => c.isDigit))

/-- Parses the signed digit run of an exponent suffix; `none` when the digits
are missing (an invalid literal). -/
def parseSignedDigits (cs : List Char) : Option ℤ × List Char :=
  match cs with
  | '-' :: rest =>
    let (ds, rest2) := spanDigits rest
    if ds.isEmpty then (none, rest2) else (some (-(digitsVal ds : ℤ)), rest2)
  | '+' :: rest =>
    let (ds, rest2) := spanDigits rest
    if ds.isEmpty then (none, rest2) else (some (digitsVal ds : ℤ), rest2)
  | _ =>
    let (ds, rest2) := spanDigits cs
    if ds.isEmpty then (none, rest2) else (some (digitsVal ds : ℤ), rest2)

/-- Parses an optional exponent suffix (`e`/`E` then signed digits). -/
def parseExpSuffix (cs : List Char) : Option ℤ × List Char :=
  match cs with
  | 'e' :: rest => parseSignedDigits rest
  | 'E' :: rest => parseSignedDigits rest
  | _ => (some 0, cs)

/-- Parses a JavaScript decimal numeric literal (optional sign, integer part,
fraction, exponent), as `Number(string)` does after trimming whitespace; the
empty string is 0 and anything unparsable is NaN (`none`). The result's
value is `sign * (int + frac / 10 ^ fracLen) * 10 ^ e`, kept as an explicit
fraction. -/
def parseNumLit (s : String) : Option JNum :=
  let cs := jsTrim s.toList
  if cs.isEmpty then some { num := 0, den := 1 }
  else
    let signAndRest : ℤ × List Char :=
      match cs with
      | '-' :: rest => (-1, rest)
      | '+' :: rest => (1, rest)
      | _ => (1, cs)
    let (intPart, cs2) := spanDigits signAndRest.2
    let (fracPart, cs3) :=
      match cs2 with
      | '.' :: rest => spanDigits rest
      | _ => ([], cs2)
    if intPart.isEmpty && fracPart.isEmpty then none
    else
      let expAndRest := parseExpSuffix cs3
      match expAndRest.1 with
      | none => none
      | some e =>
        if expAndRest.2.isEmpty then
          let mnum : ℤ := signAndRest.1 *
            ((digitsVal intPart : ℤ) * 10 ^ fracPart.length + (digitsVal fracPart : ℤ))
          let mden : ℤ := 10 ^ fracPart.length
          if 0 ≤ e then some { num := mnum * 10 ^ e.toNat, den := mden }
          else some { num := mnum, den := mden * 10 ^ (-e).toNat }
        else none

/-- JavaScript `Number(v)` conversion; `none` models NaN. Arrays convert via
their string form. -/
def jvalToNumber : JVal → Option JNum
  | .undefined => none
  | .null => some { num := 0, den := 1 }
  | .bool b => some { num := cond b 1 0, den := 1 }
  | .num q => some q
  | .str s => parseNumLit s
  | .arr xs => parseNumLit (jvalToString (.arr xs))
  | .obj _ => none

/-- JavaScript `x || d` applied to a coerced number: NaN and 0 both fall back
to the default. -/
def jsOrNum (o : Option JNum) (d : JNum) : JNum :=
  match o with
  | none => d
  | some q => if q.num = 0 then d else q

/-- JavaScript `s || d` on strings: the empty string falls back to the
default. -/
def jsOrStr (s d : String) : String :=
  if s = "" then d else s

/-- JavaScript `Math.round`: round half toward positive infinity, that is
`⌊q + 1/2⌋`, computed by floor division on the fraction. -/
def jsRound (q : JNum) : ℤ := Int.fdiv (2 * q.num + q.den) (2 * q.den)

/-- Embedding of `sanitizeText(value, maxLen)` (server.js:121-127):
`String(value || "")`, trimmed, cut to `maxLen` characters when `maxLen` is
truthy (nonzero). -/
def sanitizeText (v : JVal) (maxLen : ℕ) : String :=
  let clean := jsTrim (jvalToString (jor v (.str ""))).toList
  if maxLen = 0 then clean.asString else (clean.take maxLen).asString

/-- A normalized order line item (server.js:134-139). -/
structure Item where
  name : String
  price : ℤ
  qty : ℤ
  image : String
deriving DecidableEq, Repr

/-- Normalization of one raw item (the `map` body of `normalizeItems`,
server.js:134-140). -/
def normalizeOne (item : JVal) : Item :=
  { name := sanitizeText (jand item (jfield item "name")) 120
    price := max 0 (jsRound (jsOrNum (jvalToNumber (jand item (jfield item "price")))
      { num := 0, den := 1 }))
    qty := max 1 (min 99 (jsRound (jsOrNum (jvalToNumber (jand item (jfield item "qty")))
      { num := 1, den := 1 })))
    image := sanitizeText (jand item (jfield item "image")) 2048 }

/-- Embedding of `normalizeItems(items)` (server.js:129-142): non-arrays give
the empty list; items are normalized and those with an empty name dropped. -/
def normalizeItems : JVal → List Item
  | .arr xs => (xs.map normalizeOne).filter (fun it => it.name ≠ "")
  | _ => []

/-- Checks whether a value is an array (`Array.isArray`). -/
def isArr : JVal → Bool
  | .arr _ => true
  | _ => false

/-- Embedding of the order total computed at server.js:276:
`items.reduce((sum, item) => sum + item.price * item.qty, 0)`. -/
def orderTotal (items : List Item) : ℤ :=
  items.foldl (fun s it => s + it.price * it.qty) 0

/-- A stored admin session (server.js:86-90). Timestamps are abstract
milliseconds. -/
structure Session where
  adminId : ℕ
  username : String
  expiresAt : ℕ
deriving DecidableEq, Repr

/-- The session map, keyed by token; JS `Map` modelled as an association
list with unique keys. -/
abbrev SessionMap := List (String × Session)

/-- JS `Map.delete(k)`: removes the entry for the key. -/
def sdelete (m : SessionMap) (k : String) : SessionMap :=
  m.filter (fun p => p.1 ≠ k)

/-- Embedding of `getSession(token)` (server.js:94-104): returns the session
and the possibly-updated map; a present-but-expired entry
(`expiresAt < Date.now()`) is deleted lazily and `null` returned. -/
def getSession (m : SessionMap) (token : String) (now : ℕ) :
    Option Session × SessionMap :=
  match m.lookup token with
  | none => (none, m)
  | some s => if s.expiresAt < now then (none, sdelete m token) else (some s, m)

/-- Embedding of the periodic session sweep (server.js:435-439): deletes every
entry with `expiresAt < now`. -/
def sweep (m : SessionMap) (now : ℕ) : SessionMap :=
  m.filter (fun p => ¬ p.2.expiresAt < now)

/-- A persisted order row (table `orders`, server.js:231-241). -/
structure OrderRow where
  id : ℕ
  customerName : String
  tableNo : String
  note : String
  status : String
  total : ℤ
  createdAt : ℕ
  updatedAt : ℕ
deriving DecidableEq, Repr

/-- A persisted order item row (table `order_items`, server.js:244-252). -/
structure ItemRow where
  id : ℕ
  orderId : ℕ
  name : String
  price : ℤ
  qty : ℤ
  image : String
deriving DecidableEq, Repr

/-- The committed database: the two order tables plus their autoincrement
counters. -/
structure DBState where
  orders : List OrderRow
  orderItems : List ItemRow
  nextOrderId : ℕ
  nextItemId : ℕ
deriving DecidableEq, Repr

/-- Connection state while a request runs: the committed store, the open
transaction's view (if any), a step counter numbering the storage operations
issued so far, and the oracle of step indices at which the store fails. -/
structure St where
  db : DBState
  txn : Option DBState
  step : ℕ
  fails : List ℕ
deriving Repr

/-- A database computation: fallible, state-passing. -/
def M (α : Type) : Type := St → Except String α × St

/-- Returns a pure value without touching the store. -/
def mPure {α : Type} (a : α) : M α := fun st => (.ok a, st)

/-- Sequences two database computations, short-circuiting on failure. -/
def mBind {α β : Type} (x : M α) (f : α → M β) : M β := fun st =>
  match x st with
  | (.ok a, st1) => f a st1
  | (.error e, st1) => (.error e, st1)

/-- Advances the step counter by one storage operation. -/
def bump (st : St) : St := { st with step := st.step + 1 }

/-- The state a statement sees: the open transaction's view when a
transaction is active, else the committed store. -/
def effState (st : St) : DBState := st.txn.getD st.db

/-- A read-only statement: consults the failure oracle, then reads the
effective state. -/
def dbRead {α : Type} (f : DBState → α) : M α := fun st =>
  if st.step ∈ st.fails then (.error "SQLITE_ERROR", bump st)
  else (.ok (f (effState st)), bump st)

/-- A write statement: consults the failure oracle, then applies the change
to the open transaction's view when one is active, else directly to the
committed store (autocommit). -/
def dbWrite {α : Type} (f : DBState → DBState × α) : M α := fun st =>
  if st.step ∈ st.fails then (.error "SQLITE_ERROR", bump st)
  else
    match st.txn with
    | some t => (.ok (f t).2, { bump st with txn := some (f t).1 })
    | none => (.ok (f st.db).2, { bump st with db := (f st.db).1 })

/-- Embedding of `run("BEGIN TRANSACTION;")`: opens a transaction over a
snapshot of the committed store. -/
def runBegin : M Unit := fun st =>
  if st.step ∈ st.fails then (.error "SQLITE_ERROR", bump st)
  else
    match st.txn with
    | some _ => (.error "cannot start a transaction within a transaction", bump st)
    | none => (.ok (), { bump st with txn := some st.db })

/-- Embedding of `run("COMMIT;")`: atomically publishes the transaction's
view; on failure the committed store is untouched. -/
def runCommit : M Unit := fun st =>
  if st.step ∈ st.fails then (.error "SQLITE_ERROR", bump st)
  else
    match st.txn with
    | some t => (.ok (), { bump st with db := t, txn := none })
    | none => (.error "cannot commit - no transaction is active", bump st)

/-- Embedding of `run("ROLLBACK;")`: discards the transaction's view; never
touches the committed store. -/
def runRollback : M Unit := fun st =>
  if st.step ∈ st.fails then (.error "SQLITE_ERROR", bump st)
  else
    match st.txn with
    | some _ => (.ok (), { bump st with txn := none })
    | none => (.error "cannot rollback - no transaction is active", bump st)

/-- The state change of the order-row INSERT: appends a pending order row
under the next order id. -/
def appendOrderRow (cn tn nt : String) (total : ℤ) (now : ℕ) (d : DBState) : DBState :=
  { d with
      orders := d.orders ++
        [{ id := d.nextOrderId, customerName := cn, tableNo := tn, note := nt,
           status := "pending", total := total, createdAt := now, updatedAt := now }],
      nextOrderId := d.nextOrderId + 1 }

/-- Embedding of the order-row INSERT (server.js:282-286); yields `lastID`. -/
def insertOrderRow (cn tn nt : String) (total : ℤ) (now : ℕ) : M ℕ :=
  dbWrite fun d => (appendOrderRow cn tn nt total now d, d.nextOrderId)

/-- The state change of one item-row INSERT: appends the item row under the
next item id, tied to the given order. -/
def appendItemRow (oid : ℕ) (it : Item) (d : DBState) : DBState :=
  { d with
      orderItems := d.orderItems ++
        [{ id := d.nextItemId, orderId := oid, name := it.name,
           price := it.price, qty := it.qty, image := it.image }],
      nextItemId := d.nextItemId + 1 }

/-- Embedding of one item-row INSERT (server.js:291-295). -/
def insertItemRow (oid : ℕ) (it : Item) : M Unit :=
  dbWrite fun d => (appendItemRow oid it d, ())

/-- The sequential item-insertion loop (server.js:289-296). -/
def insertItemsLoop (oid : ℕ) : List Item → M Unit
  | [] => mPure ()
  | it :: rest => mBind (insertItemRow oid it) (fun _ => insertItemsLoop oid rest)

/-- Finds the order row with the given id (the SELECT of `getOrderById`,
server.js:145-150). -/
def findOrderRow (d : DBState) (oid : ℕ) : Option OrderRow :=
  d.orders.find? (fun o => o.id == oid)

/-- The item rows of an order, `ORDER BY id ASC` (server.js:155-161). -/
def itemsOf (d : DBState) (oid : ℕ) : List ItemRow :=
  List.insertionSort (fun a b => a.id ≤ b.id)
    (d.orderItems.filter (fun r => r.orderId == oid))

/-- An order together with its attached items, as `getOrderById` returns it. -/
structure OrderView where
  row : OrderRow
  items : List ItemRow
deriving DecidableEq, Repr

/-- Pure form of `getOrderById` over a database snapshot. -/
def getOrderByIdPure (d : DBState) (oid : ℕ) : Option OrderView :=
  match findOrderRow d oid with
  | none => none
  | some o => some { row := o, items := itemsOf d oid }

/-- Embedding of `getOrderById(orderId)` (server.js:144-163): the order
SELECT, then (when found) the items SELECT. -/
def getOrderByIdM (oid : ℕ) : M (Option OrderView) :=
  mBind (dbRead (fun d => findOrderRow d oid)) (fun r =>
    match r with
    | none => mPure none
    | some o =>
      mBind (dbRead (fun d => itemsOf d oid)) (fun its =>
        mPure (some { row := o, items := its })))

/-- The transactional body of the create-order handler (server.js:280-300):
BEGIN, order insert, sequential item inserts, COMMIT, then the re-read. -/
def createOrderM (cn tn nt : String) (items : List Item) (total : ℤ) (now : ℕ) :
    M (ℕ × Option OrderView) :=
  mBind runBegin (fun _ =>
  mBind (insertOrderRow cn tn nt total now) (fun oid =>
  mBind (insertItemsLoop oid items) (fun _ =>
  mBind runCommit (fun _ =>
  mBind (getOrderByIdM oid) (fun v =>
  mPure (oid, v))))))

/-- The UPDATE of the status handler (server.js:373-378); yields `changes`. -/
def dbUpdateStatus (oid : ℕ) (status : String) (now : ℕ) : M ℕ :=
  dbWrite fun d =>
    ({ d with
        orders := d.orders.map (fun o =>
          if o.id == oid then { o with status := status, updatedAt := now } else o) },
     (d.orders.filter (fun o => o.id == oid)).length)

/-- The storage part of the status handler (server.js:373-386): the UPDATE,
then when a row changed, the re-read; `none` signals the 404 path. -/
def updateStatusM (oid : ℕ) (status : String) (now : ℕ) :
    M (Option (Option OrderView)) :=
  mBind (dbUpdateStatus oid status now) (fun changes =>
    if changes = 0 then mPure none
    else mBind (getOrderByIdM oid) (fun v => mPure (some v)))

/-- An HTTP response of the two mutating endpoints. -/
inductive ApiResp where
  | created : ℕ → ℤ → ApiResp
  | badRequest : String → ApiResp
  | okOrder : String → Option OrderView → ApiResp
  | notFound : String → ApiResp
  | internalError : String → ApiResp
deriving DecidableEq, Repr

/-- An event handed to the hub's `broadcast` by a handler: the SSE event
name, the payload's `type` tag, and the order carried. -/
structure BEvent where
  event : String
  type : String
  order : Option OrderView
deriving DecidableEq, Repr

/-- Embedding of `POST /api/orders` (server.js:265-317). Besides the
response it returns the committed database after the request, the broadcasts
issued, and the number of storage operations performed. -/
def createOrder (body : JVal) (now : ℕ) (fails : List ℕ) (db : DBState) :
    ApiResp × DBState × List BEvent × ℕ :=
  let customerName := jsOrStr (sanitizeText (jand body (jfield body "customerName")) 80) "ลูกค้า"
  let tableNo := sanitizeText (jand body (jfield body "tableNo")) 60
  let note := sanitizeText (jand body (jfield body "note")) 300
  let items := normalizeItems (jand body (jfield body "items"))
  if items.isEmpty then (.badRequest "ไม่มีรายการสินค้าในออเดอร์", db, [], 0)
  else
    let total := orderTotal items
    let st0 : St := { db := db, txn := none, step := 0, fails := fails }
    match createOrderM customerName tableNo note items total now st0 with
    | (.ok p, st1) =>
      (.created p.1 total, st1.db,
       [{ event := "order", type := "order_created", order := p.2 }], st1.step)
    | (.error _, st1) =>
      let st2 := (runRollback st1).2
      (.internalError "เกิดข้อผิดพลาดในการบันทึกออเดอร์", st2.db, [], st2.step)

/-- Lower-casing (JS `String.prototype.toLowerCase`), charwise. -/
def jsToLower (s : String) : String := (s.toList.map Char.toLower).asString

/-- The four legal order statuses (server.js:14). -/
def orderStatuses : List String := ["pending", "preparing", "served", "cancelled"]

/-- Embedding of `PATCH /api/admin/orders/:id/status` (server.js:358-392).
`idRaw` is the raw path parameter string. -/
def updateStatus (idRaw : String) (body : JVal) (now : ℕ) (fails : List ℕ)
    (db : DBState) : ApiResp × DBState × List BEvent × ℕ :=
  let oidQ := parseNumLit idRaw
  let nextStatus := jsToLower (sanitizeText (jand body (jfield body "status")) 40)
  match oidQ with
  | none => (.badRequest "order id ไม่ถูกต้อง", db, [], 0)
  | some q =>
    if q.den ∣ q.num ∧ 0 < q.num then
      if nextStatus ∈ orderStatuses then
        let oid := (q.num / q.den).toNat
        let st0 : St := { db := db, txn := none, step := 0, fails := fails }
        match updateStatusM oid nextStatus now st0 with
        | (.error _, st1) => (.internalError "อัปเดตสถานะไม่สำเร็จ", st1.db, [], st1.step)
        | (.ok none, st1) => (.notFound "ไม่พบออเดอร์", st1.db, [], st1.step)
        | (.ok (some v), st1) =>
          (.okOrder "อัปเดตสถานะสำเร็จ" v, st1.db,
           [{ event := "order", type := "order_updated", order := v }], st1.step)
      else (.badRequest "สถานะไม่ถูกต้อง", db, [], 0)
    else (.badRequest "order id ไม่ถูกต้อง", db, [], 0)

/-- A registered SSE subscriber: a connection identifier plus the token it
authenticated with (server.js:409). -/
structure SseClient where
  cid : ℕ
  token : String
deriving DecidableEq, Repr

/-- Embedding of `broadcast(event, payload)` (server.js:193-216), folded over
the live set in insertion order. For each subscriber the token is re-checked
(mutating the session map on lazy expiry): invalid subscribers are removed
and closed without a send; a failed send (`cid ∈ badSends`) also removes and
closes. Returns the surviving set, the session map, the sends performed, and
the closed connections. -/
def broadcastAux {π : Type} (now : ℕ) (badSends : List ℕ) (ev : String) (pl : π) :
    List SseClient → SessionMap →
    List SseClient × SessionMap × List (SseClient × String × π) × List SseClient
  | [], m => ([], m, [], [])
  | c :: rest, m =>
    let r := getSession m c.token now
    match r.1 with
    | none =>
      let out := broadcastAux now badSends ev pl rest r.2
      (out.1, out.2.1, out.2.2.1, c :: out.2.2.2)
    | some _ =>
      if c.cid ∈ badSends then
        let out := broadcastAux now badSends ev pl rest r.2
        (out.1, out.2.1, out.2.2.1, c :: out.2.2.2)
      else
        let out := broadcastAux now badSends ev pl rest r.2
        (c :: out.1, out.2.1, (c, ev, pl) :: out.2.2.1, out.2.2.2)

/-- Embedding of the 25-second interval body (server.js:433-441): the session
sweep followed by the `ping` broadcast carrying the current timestamp. -/
def heartbeat (now : ℕ) (badSends : List ℕ) (clients : List SseClient)
    (m : SessionMap) :
    List SseClient × SessionMap × List (SseClient × String × ℕ) × List SseClient :=
  broadcastAux now badSends "ping" now clients (sweep m now)

/-- An observable action of the streaming endpoint on the hub. -/
inductive HubAction where
  | add : SseClient → HubAction
  | send : SseClient → String → HubAction
deriving DecidableEq, Repr

/-- Outcome of a streaming-connection request. -/
inductive StreamResp where
  | unauthorized : StreamResp
  | streamOpen : StreamResp
deriving DecidableEq, Repr

/-- Embedding of `GET /api/admin/orders/stream` (server.js:394-416): token
from the query string, session check, then — in this order — the subscriber
is added to the live set and the `ready` handshake is sent. -/
def streamEndpoint (query : JVal) (cid : ℕ) (now : ℕ) (m : SessionMap)
    (clients : List SseClient) :
    StreamResp × List SseClient × SessionMap × List HubAction :=
  let token := sanitizeText (jand query (jfield query "token")) 200
  let r := getSession m token now
  match r.1 with
  | none => (.unauthorized, clients, r.2, [])
  | some _ =>
    let c : SseClient := { cid := cid, token := token }
    (.streamOpen, clients ++ [c], r.2, [.add c, .send c "ready"])

/-! ## Shared sample values used by witnesses and counterexamples -/

/-- An empty database, as after `initDatabase` with fresh tables. -/
def dbEmpty : DBState := { orders := [], orderItems := [], nextOrderId := 1, nextItemId := 1 }

/-- A well-formed order submission (spec scenario 1). -/
def bodyNid : JVal := .obj [("customerName", .str "Nid"), ("tableNo", .str "T3"),
  ("note", .str "no chili"),
  ("items", .arr [.obj [("name", .str "Pad Thai"), ("price", .num { num := 60, den := 1 }), ("qty", .num { num := 2, den := 1 })],
                  .obj [("name", .str "Tea"), ("price", .num { num := 15, den := 1 }), ("qty", .num { num := 1, den := 1 })]])]

/-- A submission with a single valid item and no other fields. -/
def bodyTea : JVal := .obj [("items", .arr
  [.obj [("name", .str "Tea"), ("price", .num { num := 15, den := 1 }), ("qty", .num { num := 2, den := 1 })]])]

/-- A submission whose only item has a blank name (spec scenario 6). -/
def bodyBlankName : JVal := .obj [("items", .arr
  [.obj [("name", .str ""), ("price", .num { num := 10, den := 1 }), ("qty", .num { num := 1, den := 1 })]])]

/-- A session used in session-store examples. -/
def sess100 : Session := { adminId := 1, username := "admin", expiresAt := 100 }

/-! ## Session-map preservation lemmas for the Event Hub -/

/-- Helper: looking up a key just deleted from the map finds nothing. -/
theorem lookup_sdelete_self (m : SessionMap) (k : String) :
    (sdelete m k).lookup k = none := by
  induction m with
  | nil => rfl
  | cons p rest ih =>
    rw [sdelete, List.filter_cons]
    rw [sdelete] at ih
    by_cases hp : p.1 = k
    · rw [if_neg (show ¬ (decide (p.1 ≠ k) = true) by simp [hp])]
      exact ih
    · rw [if_pos (by simp [hp])]
      rw [List.lookup]
      rw [show (k == p.1) = false from beq_eq_false_iff_ne.mpr (fun he => hp he.symm)]
      exact ih

/-- Helper: deleting one key leaves every other key's lookup unchanged. -/
theorem lookup_sdelete_ne (m : SessionMap) (k k2 : String) (hq : k ≠ k2) :
    (sdelete m k2).lookup k = m.lookup k := by
  induction m with
  | nil => rfl
  | cons p rest ih =>
    rw [sdelete, List.filter_cons]
    rw [sdelete] at ih
    by_cases hp : p.1 = k2
    · rw [if_neg (show ¬ (decide (p.1 ≠ k2) = true) by simp [hp])]
      rw [ih, List.lookup]
      rw [show (k == p.1) = false from beq_eq_false_iff_ne.mpr (by rw [hp]; exact hq)]
    · rw [if_pos (by simp [hp])]
      rw [List.lookup, List.lookup]
      cases hb : k == p.1 with
      | true => rfl
      | false => exact ih

/-- Helper: `getSession` returns absent exactly when the token is missing or
its entry is expired. -/
theorem getSession_none_iff (m : SessionMap) (t : String) (now : ℕ) :
    (getSession m t now).1 = none ↔
      (m.lookup t = none ∨ ∃ s, m.lookup t = some s ∧ s.expiresAt < now) := by
  rw [getSession]
  cases hl : m.lookup t with
  | none => simp
  | some s =>
    by_cases he : s.expiresAt < now
    · simp [he]
    · simp [he]

/-- Helper: a token that validates to absent still validates to absent after
any deletion from the session map. -/
theorem getSession_none_sdelete (m : SessionMap) (t k : String) (now : ℕ)
    (h : (getSession m t now).1 = none) :
    (getSession (sdelete m k) t now).1 = none := by
  rw [getSession_none_iff] at h ⊢
  by_cases hk : t = k
  · left
    rw [hk]
    exact lookup_sdelete_self m k
  · rw [lookup_sdelete_ne m t k hk]
    exact h

/-- Helper: a token that validates to absent still validates to absent after
another token's `getSession` (which can at most delete an expired entry). -/
theorem getSession_none_step (m : SessionMap) (t t2 : String) (now : ℕ)
    (h : (getSession m t now).1 = none) :
    (getSession ((getSession m t2 now).2) t now).1 = none := by
  cases hl : m.lookup t2 with
  | none =>
    rw [show (getSession m t2 now).2 = m from by simp only [getSession, hl]]
    exact h
  | some s =>
    by_cases he : s.expiresAt < now
    · rw [show (getSession m t2 now).2 = sdelete m t2 from by
        simp only [getSession, hl]
        rw [if_pos he]]
      exact getSession_none_sdelete m t t2 now h
    · rw [show (getSession m t2 now).2 = m from by
        simp only [getSession, hl]
        rw [if_neg he]]
      exact h

/-- Helper: lookup misses are preserved by filtering. -/
theorem lookup_filter_none (l : SessionMap) (q : String × Session → Bool) (t : String)
    (h : l.lookup t = none) : (l.filter q).lookup t = none := by
  induction l with
  | nil => simp
  | cons p rest ih =>
    rw [List.lookup] at h
    cases hb : t == p.1 with
    | true => rw [hb] at h; cases h
    | false =>
      rw [hb] at h
      rw [List.filter_cons]
      cases hq : q p with
      | true =>
        rw [if_pos rfl, List.lookup, hb]
        exact ih h
      | false =>
        rw [if_neg (by simp)]
        exact ih h

/-- Helper: a key outside a map's key list looks up to nothing. -/
theorem lookup_none_keys (l : SessionMap) (t : String)
    (h : t ∉ l.map (fun p => p.1)) : l.lookup t = none := by
  induction l with
  | nil => rfl
  | cons p rest ih =>
    rw [List.map_cons, List.mem_cons] at h
    push_neg at h
    rw [List.lookup]
    rw [show (t == p.1) = false from beq_eq_false_iff_ne.mpr h.1]
    exact ih h.2

/-- Helper: with unique keys, the sweep removes a token whose (unique) entry
is expired. -/
theorem lookup_sweep_none (m : SessionMap) (now : ℕ) (t : String)
    (hnd : (m.map (fun p => p.1)).Nodup)
    (h : ∀ s, m.lookup t = some s → s.expiresAt < now) :
    (sweep m now).lookup t = none := by
  induction m with
  | nil => rfl
  | cons p rest ih =>
    rw [List.map_cons, List.nodup_cons] at hnd
    rw [sweep, List.filter_cons]
    by_cases hb : t = p.1
    · have hexp : p.2.expiresAt < now := by
        apply h p.2
        rw [List.lookup, show (t == p.1) = true from beq_iff_eq.mpr hb]
      rw [if_neg (by simp [hexp])]
      rw [sweep] at ih
      apply lookup_filter_none
      apply lookup_none_keys
      rw [hb]
      exact hnd.1
    · have hbf : (t == p.1) = false := beq_eq_false_iff_ne.mpr hb
      have hrest : ∀ s, rest.lookup t = some s → s.expiresAt < now := by
        intro s hs
        apply h s
        rw [List.lookup, hbf]
        exact hs
      rw [sweep] at ih
      cases hq : decide (¬ p.2.expiresAt < now) with
      | true =>
        rw [if_pos rfl]
        rw [List.lookup, hbf]
        exact ih hnd.2 hrest
      | false =>
        rw [if_neg (by simp)]
        exact ih hnd.2 hrest

/-- Helper: a token that validates to absent still validates to absent after
the periodic sweep (the session map has unique keys, as a JS `Map` does). -/
theorem getSession_none_sweep (m : SessionMap) (t : String) (now : ℕ)
    (hnd : (m.map (fun p => p.1)).Nodup)
    (h : (getSession m t now).1 = none) :
    (getSession (sweep m now) t now).1 = none := by
  rw [getSession_none_iff] at h ⊢
  left
  cases h with
  | inl hl => exact lookup_filter_none _ _ _ hl
  | inr hr =>
    obtain ⟨s, hl, he⟩ := hr
    apply lookup_sweep_none m now t hnd
    intro s2 hs2
    rw [hl] at hs2
    injection hs2 with h2
    rw [← h2]
    exact he

/-! ## Event-hub fan-out lemmas -/

/-- Helper: every event sent by a broadcast goes to a member of the live
set the broadcast started from. -/
theorem broadcastAux_send_mem {π : Type} (now : ℕ) (bs : List ℕ) (ev : String) (pl : π) :
    ∀ (clients : List SseClient) (m : SessionMap) (e : SseClient × String × π),
      e ∈ (broadcastAux now bs ev pl clients m).2.2.1 → e.1 ∈ clients := by
  intro clients
  induction clients with
  | nil =>
    intro m e he
    simp [broadcastAux] at he
  | cons d rest ih =>
    intro m e he
    cases hr : (getSession m d.token now).1 with
    | none =>
      simp only [broadcastAux, hr] at he
      exact List.mem_cons_of_mem d (ih _ e he)
    | some s =>
      by_cases hbs : d.cid ∈ bs
      · simp only [broadcastAux, hr, if_pos hbs] at he
        exact List.mem_cons_of_mem d (ih _ e he)
      · simp only [broadcastAux, hr, if_neg hbs, List.mem_cons] at he
        cases he with
        | inl h1 => rw [h1]; exact List.mem_cons_self d rest
        | inr h2 => exact List.mem_cons_of_mem d (ih _ e h2)

/-- Helper: every survivor of a broadcast was a member of the live set the
broadcast started from. -/
theorem broadcastAux_client_mem {π : Type} (now : ℕ) (bs : List ℕ) (ev : String) (pl : π) :
    ∀ (clients : List SseClient) (m : SessionMap) (d : SseClient),
      d ∈ (broadcastAux now bs ev pl clients m).1 → d ∈ clients := by
  intro clients
  induction clients with
  | nil =>
    intro m d hd
    simp [broadcastAux] at hd
  | cons c rest ih =>
    intro m d hd
    cases hr : (getSession m c.token now).1 with
    | none =>
      simp only [broadcastAux, hr] at hd
      exact List.mem_cons_of_mem c (ih _ d hd)
    | some s =>
      by_cases hbs : c.cid ∈ bs
      · simp only [broadcastAux, hr, if_pos hbs] at hd
        exact List.mem_cons_of_mem c (ih _ d hd)
      · simp only [broadcastAux, hr, if_neg hbs, List.mem_cons] at hd
        cases hd with
        | inl h1 => rw [h1]; exact List.mem_cons_self c rest
        | inr h2 => exact List.mem_cons_of_mem c (ih _ d h2)

/-- Helper: a subscriber whose token validates to absent is dropped by the
broadcast pass: it is not among the survivors, receives no send, and when it
was in the live set its connection is closed. -/
theorem broadcastAux_drops {π : Type} (now : ℕ) (bs : List ℕ) (ev : String) (pl : π) :
    ∀ (clients : List SseClient) (m : SessionMap) (c : SseClient),
      (getSession m c.token now).1 = none →
      c ∉ (broadcastAux now bs ev pl clients m).1 ∧
      (∀ e ∈ (broadcastAux now bs ev pl clients m).2.2.1, e.1 ≠ c) ∧
      (c ∈ clients → c ∈ (broadcastAux now bs ev pl clients m).2.2.2) := by
  intro clients
  induction clients with
  | nil =>
    intro m c h
    refine ⟨by simp [broadcastAux], by simp [broadcastAux], ?_⟩
    intro hmem
    cases hmem
  | cons d rest ih =>
    intro m c h
    have hstep := getSession_none_step m c.token d.token now h
    cases hr : (getSession m d.token now).1 with
    | none =>
      obtain ⟨ha, hb, hc⟩ := ih _ c hstep
      simp only [broadcastAux, hr]
      refine ⟨ha, hb, ?_⟩
      intro hmem
      rcases List.mem_cons.mp hmem with heq | hmem2
      · rw [heq]
        exact List.mem_cons_self d _
      · exact List.mem_cons_of_mem d (hc hmem2)
    | some s =>
      have hcd : c ≠ d := by
        intro he
        rw [he] at h
        rw [h] at hr
        cases hr
      obtain ⟨ha, hb, hc⟩ := ih _ c hstep
      by_cases hbs : d.cid ∈ bs
      · simp only [broadcastAux, hr, if_pos hbs]
        refine ⟨ha, hb, ?_⟩
        intro hmem
        rcases List.mem_cons.mp hmem with heq | hmem2
        · exact absurd heq hcd
        · exact List.mem_cons_of_mem d (hc hmem2)
      · simp only [broadcastAux, hr, if_neg hbs]
        refine ⟨?_, ?_, ?_⟩
        · intro hmem
          rcases List.mem_cons.mp hmem with heq | hmem2
          · exact hcd heq
          · exact ha hmem2
        · intro e hemem
          rcases List.mem_cons.mp hemem with heq | hmem2
          · rw [heq]
            exact fun hdc => hcd hdc.symm
          · exact hb e hmem2
        · intro hmem
          rcases List.mem_cons.mp hmem with heq | hmem2
          · exact absurd heq hcd
          · exact hc hmem2

/-! ## C6 — expired subscribers are pruned and silenced -/

/-- C6: a subscriber whose session has expired or been deleted is, on the
next broadcast (business event or heartbeat ping), removed from the live
set and its connection closed without receiving the event; and once out of
the live set it receives no event from any later broadcast (broadcasts only
send to members of the set and never re-add it). The session map carries
unique keys, as a JS `Map` does. -/
theorem expired_subscriber_pruned {π π2 : Type} (now : ℕ) (bs : List ℕ) (ev : String)
    (pl : π) (clients : List SseClient) (m : SessionMap) (c : SseClient)
    (hnd : (m.map (fun p => p.1)).Nodup)
    (hmem : c ∈ clients) (hsess : (getSession m c.token now).1 = none) :
    (c ∉ (broadcastAux now bs ev pl clients m).1 ∧
     (∀ e ∈ (broadcastAux now bs ev pl clients m).2.2.1, e.1 ≠ c) ∧
     c ∈ (broadcastAux now bs ev pl clients m).2.2.2) ∧
    (c ∉ (heartbeat now bs clients m).1 ∧
     (∀ e ∈ (heartbeat now bs clients m).2.2.1, e.1 ≠ c) ∧
     c ∈ (heartbeat now bs clients m).2.2.2) ∧
    (∀ (clients2 : List SseClient) (m2 : SessionMap) (bs2 : List ℕ) (now2 : ℕ)
       (ev2 : String) (pl2 : π2), c ∉ clients2 →
       c ∉ (broadcastAux now2 bs2 ev2 pl2 clients2 m2).1 ∧
       (∀ e ∈ (broadcastAux now2 bs2 ev2 pl2 clients2 m2).2.2.1, e.1 ≠ c)) := by
  obtain ⟨h1, h2, h3⟩ := broadcastAux_drops now bs ev pl clients m c hsess
  have hsw := getSession_none_sweep m c.token now hnd hsess
  obtain ⟨g1, g2, g3⟩ := broadcastAux_drops now bs "ping" now clients (sweep m now) c hsw
  refine ⟨⟨h1, h2, h3 hmem⟩, ⟨g1, g2, g3 hmem⟩, ?_⟩
  intro clients2 m2 bs2 now2 ev2 pl2 hout
  refine ⟨?_, ?_⟩
  · intro hin
    exact hout (broadcastAux_client_mem now2 bs2 ev2 pl2 clients2 m2 c hin)
  · intro e he hec
    apply hout
    rw [← hec]
    exact broadcastAux_send_mem now2 bs2 ev2 pl2 clients2 m2 e he

/-- Witness for C6: one live subscriber whose only session entry expired at
100 while the broadcast happens at time 200. -/
theorem expired_subscriber_pruned_witness :
    (({ cid := 5, token := "t" } : SseClient) ∉
       (broadcastAux 200 [] "order" (0 : ℕ) [{ cid := 5, token := "t" }] [("t", sess100)]).1 ∧
     (∀ e ∈ (broadcastAux 200 [] "order" (0 : ℕ) [{ cid := 5, token := "t" }] [("t", sess100)]).2.2.1,
        e.1 ≠ ({ cid := 5, token := "t" } : SseClient)) ∧
     ({ cid := 5, token := "t" } : SseClient) ∈
       (broadcastAux 200 [] "order" (0 : ℕ) [{ cid := 5, token := "t" }] [("t", sess100)]).2.2.2) ∧
    (({ cid := 5, token := "t" } : SseClient) ∉
       (heartbeat 200 [] [{ cid := 5, token := "t" }] [("t", sess100)]).1 ∧
     (∀ e ∈ (heartbeat 200 [] [{ cid := 5, token := "t" }] [("t", sess100)]).2.2.1,
        e.1 ≠ ({ cid := 5, token := "t" } : SseClient)) ∧
     ({ cid := 5, token := "t" } : SseClient) ∈
       (heartbeat 200 [] [{ cid := 5, token := "t" }] [("t", sess100)]).2.2.2) ∧
    (∀ (clients2 : List SseClient) (m2 : SessionMap) (bs2 : List ℕ) (now2 : ℕ)
       (ev2 : String) (pl2 : ℕ), ({ cid := 5, token := "t" } : SseClient) ∉ clients2 →
       ({ cid := 5, token := "t" } : SseClient) ∉
         (broadcastAux now2 bs2 ev2 pl2 clients2 m2).1 ∧
       (∀ e ∈ (broadcastAux now2 bs2 ev2 pl2 clients2 m2).2.2.1,
          e.1 ≠ ({ cid := 5, token := "t" } : SseClient))) :=
 by
  have h1 : (([("t", sess100)] : SessionMap).map (fun p => p.1)).Nodup := by decide
  have h2 : ({ cid := 5, token := "t" } : SseClient) ∈
      ([{ cid := 5, token := "t" }] : List SseClient) := by decide
  have h3 : (getSession [("t", sess100)] ({ cid := 5, token := "t" } : SseClient).token 200).1 =
      none := by decide
  exact @expired_subscriber_pruned ℕ ℕ 200 [] "order" 0 [{ cid := 5, token := "t" }]
    [("t", sess100)] { cid := 5, token := "t" } h1 h2 h3

/-! ## C3 — lazy session expiry boundary -/

/-- C3 counterexample: the claim says `validate(token)` returns absent at the
boundary `now == expiresAt`, but `getSession` tests `expiresAt < Date.now()`
(server.js:99), so a session whose `expiresAt` equals the current time is
still returned. -/
theorem getSession_boundary_counterexample :
    (getSession [("t", sess100)] "t" 100).1 ≠ none ∧
    getSession [("t", sess100)] "t" 100 = (some sess100, [("t", sess100)]) := by
  constructor
  · decide
  · decide

/-- C3 (amended): for an issued token, `getSession` returns absent exactly
when `now > expiresAt` (deleting the expired entry); for `now <= expiresAt`,
including the boundary `now == expiresAt`, it returns the stored session
unchanged. -/
theorem getSession_lazy_expiry (m : SessionMap) (t : String) (now : ℕ) (s : Session)
    (h : m.lookup t = some s) :
    ((getSession m t now).1 = none ↔ s.expiresAt < now) ∧
    (now ≤ s.expiresAt → getSession m t now = (some s, m)) ∧
    (s.expiresAt < now → getSession m t now = (none, sdelete m t)) := by
  have hg : getSession m t now =
      if s.expiresAt < now then (none, sdelete m t) else (some s, m) := by
    unfold getSession
    rw [h]
  by_cases hc : s.expiresAt < now
  · rw [hg, if_pos hc]
    exact ⟨by simp [hc], fun hle => absurd hle (by omega), fun _ => rfl⟩
  · rw [hg, if_neg hc]
    exact ⟨by simp [hc], fun _ => rfl, fun hlt => absurd hlt hc⟩

/-- Witness for C3's amended theorem at a concrete session map. -/
theorem getSession_lazy_expiry_witness :
    ((getSession [("t", sess100)] "t" 100).1 = none ↔ sess100.expiresAt < 100) ∧
    (100 ≤ sess100.expiresAt → getSession [("t", sess100)] "t" 100 = (some sess100, [("t", sess100)])) ∧
    (sess100.expiresAt < 100 → getSession [("t", sess100)] "t" 100 = (none, sdelete [("t", sess100)] "t")) :=
  getSession_lazy_expiry [("t", sess100)] "t" 100 sess100 (by decide)

/-! ## C8 — periodic sweep boundary -/

/-- C8 counterexample: the claim says the sweep deletes entries with
`expiresAt <= now` including equality, but the interval body (server.js:436)
tests `value.expiresAt < now`, so an entry expiring exactly now survives. -/
theorem sweep_boundary_counterexample :
    sweep [("t", sess100)] 100 = [("t", sess100)] ∧ sess100.expiresAt ≤ 100 := by
  constructor
  · decide
  · decide

/-- C8 (amended): every run of the sweep deletes exactly the entries with
`expiresAt < now` (strictly); entries with `expiresAt >= now`, including the
boundary `expiresAt == now`, are kept. -/
theorem sweep_strict (m : SessionMap) (now : ℕ) :
    (∀ p ∈ m, p.2.expiresAt < now → p ∉ sweep m now) ∧
    (∀ p ∈ m, now ≤ p.2.expiresAt → p ∈ sweep m now) ∧
    (∀ p ∈ sweep m now, p ∈ m ∧ now ≤ p.2.expiresAt) := by
  refine ⟨?_, ?_, ?_⟩
  · intro p _ hlt hmem
    rw [sweep, List.mem_filter] at hmem
    simp only [decide_eq_true_eq] at hmem
    omega
  · intro p hp hle
    rw [sweep, List.mem_filter]
    simp only [decide_eq_true_eq]
    exact ⟨hp, by omega⟩
  · intro p hp
    rw [sweep, List.mem_filter] at hp
    simp only [decide_eq_true_eq] at hp
    exact ⟨hp.1, by omega⟩

/-- Witness for C8's amended theorem: an expired entry is removed and a live
one kept on a concrete map. -/
theorem sweep_strict_witness :
    ("old", ({ adminId := 2, username := "x", expiresAt := 50 } : Session)) ∉
      sweep [("old", { adminId := 2, username := "x", expiresAt := 50 }), ("t", sess100)] 100 ∧
    ("t", sess100) ∈
      sweep [("old", { adminId := 2, username := "x", expiresAt := 50 }), ("t", sess100)] 100 :=
  ⟨(sweep_strict [("old", { adminId := 2, username := "x", expiresAt := 50 }), ("t", sess100)] 100).1
      _ (by decide) (by decide),
   (sweep_strict [("old", { adminId := 2, username := "x", expiresAt := 50 }), ("t", sess100)] 100).2.1
      _ (by decide) (by decide)⟩

/-! ## C7 — handshake versus registration order -/

/-- C7 counterexample: the claim says the hub sends the `ready` handshake
first and only then adds the subscriber, but server.js:409-411 adds the
client to the live set first (`sseClients.add(client)`) and sends the
handshake after; the recorded action trace on a valid registration is
[add, send], not [send, add]. -/
theorem streamEndpoint_order_counterexample :
    (streamEndpoint (.obj [("token", .str "t")]) 7 50 [("t", sess100)] []).2.2.2 =
      [.add { cid := 7, token := "t" }, .send { cid := 7, token := "t" } "ready"] ∧
    [HubAction.add { cid := 7, token := "t" }, .send { cid := 7, token := "t" } "ready"] ≠
      [.send { cid := 7, token := "t" } "ready", .add { cid := 7, token := "t" }] := by
  constructor
  · decide
  · decide

/-- C7 (amended): when a streaming connection with a valid token registers,
the hub first adds the subscriber to the live set and then sends the `ready`
handshake; the subscriber carries the supplied connection id. -/
theorem streamEndpoint_valid_register (query : JVal) (cid now : ℕ) (m : SessionMap)
    (clients : List SseClient) (s : Session)
    (h : (getSession m (sanitizeText (jand query (jfield query "token")) 200) now).1 = some s) :
    streamEndpoint query cid now m clients =
      (.streamOpen,
       clients ++ [{ cid := cid, token := sanitizeText (jand query (jfield query "token")) 200 }],
       (getSession m (sanitizeText (jand query (jfield query "token")) 200) now).2,
       [.add { cid := cid, token := sanitizeText (jand query (jfield query "token")) 200 },
        .send { cid := cid, token := sanitizeText (jand query (jfield query "token")) 200 } "ready"]) := by
  simp only [streamEndpoint]
  rw [h]

/-- Witness for C7's amended theorem at a concrete valid registration. -/
theorem streamEndpoint_valid_register_witness :
    streamEndpoint (.obj [("token", .str "t")]) 7 50 [("t", sess100)] [] =
      (.streamOpen,
       [] ++ [{ cid := 7, token := sanitizeText (jand (.obj [("token", .str "t")]) (jfield (.obj [("token", .str "t")]) "token")) 200 }],
       (getSession [("t", sess100)] (sanitizeText (jand (.obj [("token", .str "t")]) (jfield (.obj [("token", .str "t")]) "token")) 200) 50).2,
       [.add { cid := 7, token := sanitizeText (jand (.obj [("token", .str "t")]) (jfield (.obj [("token", .str "t")]) "token")) 200 },
        .send { cid := 7, token := sanitizeText (jand (.obj [("token", .str "t")]) (jfield (.obj [("token", .str "t")]) "token")) 200 } "ready"]) :=
  streamEndpoint_valid_register (.obj [("token", .str "t")]) 7 50 [("t", sess100)] [] sess100 (by decide)

/-! ## C5 — empty normalized item list is rejected before storage -/

/-- C5: whenever the item list normalizes to empty, `createOrder` responds
with the no-items ValidationError, leaves the database untouched, broadcasts
nothing, and performs zero storage operations. -/
theorem createOrder_empty_items (body : JVal) (now : ℕ) (fails : List ℕ) (db : DBState)
    (h : normalizeItems (jand body (jfield body "items")) = []) :
    createOrder body now fails db = (.badRequest "ไม่มีรายการสินค้าในออเดอร์", db, [], 0) := by
  simp [createOrder, h]

/-- Witness for C5 on an order whose only item has a blank name. -/
theorem createOrder_empty_items_witness :
    createOrder bodyBlankName 1000 [] dbEmpty =
      (.badRequest "ไม่มีรายการสินค้าในออเดอร์", dbEmpty, [], 0) :=
  createOrder_empty_items bodyBlankName 1000 [] dbEmpty (by decide)

/-! ## C10 — absent or non-array items field -/

/-- C10: when the body's `items` field is absent or not an array,
normalization yields the empty list and `createOrder` answers exactly as for
an explicitly empty list: the same no-items ValidationError, with nothing
persisted, no broadcast, and no storage operation. -/
theorem createOrder_non_array_items (body : JVal) (now : ℕ) (fails : List ℕ) (db : DBState)
    (h : isArr (jand body (jfield body "items")) = false) :
    normalizeItems (jand body (jfield body "items")) = [] ∧
    createOrder body now fails db = (.badRequest "ไม่มีรายการสินค้าในออเดอร์", db, [], 0) ∧
    createOrder body now fails db = createOrder (.obj [("items", .arr [])]) now fails db := by
  have h1 : normalizeItems (jand body (jfield body "items")) = [] := by
    cases hv : jand body (jfield body "items")
    case arr xs => rw [hv] at h; simp [isArr] at h
    all_goals simp [normalizeItems]
  have h2 : createOrder (.obj [("items", .arr [])]) now fails db =
      (.badRequest "ไม่มีรายการสินค้าในออเดอร์", db, [], 0) := rfl
  exact ⟨h1, by simp [createOrder, h1], by rw [h2]; simp [createOrder, h1]⟩

/-- Witness for C10 with `items` given as a string. -/
theorem createOrder_non_array_items_witness :
    normalizeItems (jand (.obj [("items", .str "x")]) (jfield (.obj [("items", .str "x")]) "items")) = [] ∧
    createOrder (.obj [("items", .str "x")]) 5 [] dbEmpty =
      (.badRequest "ไม่มีรายการสินค้าในออเดอร์", dbEmpty, [], 0) ∧
    createOrder (.obj [("items", .str "x")]) 5 [] dbEmpty =
      createOrder (.obj [("items", .arr [])]) 5 [] dbEmpty :=
  createOrder_non_array_items (.obj [("items", .str "x")]) 5 [] dbEmpty (by decide)

/-! ## C9 — commit succeeded, re-read failed -/

/-- C9: an execution in which the transaction commits but the subsequent
re-read fails (the oracle fails step 4, the order SELECT): the caller gets
the InternalError response, yet the order row and its item row remain
committed and no event is broadcast — an error response from `createOrder`
does not imply nothing was persisted. -/
theorem createOrder_error_with_persisted_rows :
    createOrder bodyTea 777 [4] dbEmpty =
      (.internalError "เกิดข้อผิดพลาดในการบันทึกออเดอร์",
       { orders := [{ id := 1, customerName := "ลูกค้า", tableNo := "", note := "",
                      status := "pending", total := 30, createdAt := 777, updatedAt := 777 }],
         orderItems := [{ id := 1, orderId := 1, name := "Tea", price := 15, qty := 2, image := "" }],
         nextOrderId := 2, nextItemId := 2 },
       [], 6) := by
  decide

/-! ## Transaction-machinery lemmas shared by C1 and C2 -/

/-- Helper: a rollback never touches the committed store. -/
theorem runRollback_db (st : St) : ((runRollback st).2).db = st.db := by
  rw [runRollback]
  split
  · rfl
  · split <;> rfl

/-- Helper: while a transaction is open, the item-insertion loop leaves the
committed store and the failure oracle untouched and keeps the transaction
open. -/
theorem insertItemsLoop_inv (oid : ℕ) (items : List Item) :
    ∀ (st : St) (t : DBState), st.txn = some t →
      (insertItemsLoop oid items st).2.db = st.db ∧
      (insertItemsLoop oid items st).2.fails = st.fails ∧
      ∃ t2, (insertItemsLoop oid items st).2.txn = some t2 := by
  induction items with
  | nil =>
    intro st t h
    exact ⟨rfl, rfl, t, h⟩
  | cons it rest ih =>
    intro st t h
    by_cases hf : st.step ∈ st.fails
    · have hrow : insertItemRow oid it st = (.error "SQLITE_ERROR", bump st) := by
        simp [insertItemRow, dbWrite, hf]
      simp only [insertItemsLoop, mBind, hrow]
      exact ⟨rfl, rfl, t, h⟩
    · have hrow : insertItemRow oid it st =
          (.ok (), { bump st with txn := some (appendItemRow oid it t) }) := by
        simp [insertItemRow, dbWrite, hf, h]
      simp only [insertItemsLoop, mBind, hrow]
      exact ih _ _ rfl

/-- Helper: when the item-insertion loop succeeds, it performed exactly one
storage operation per item and none of the consumed step indices is in the
failure oracle. -/
theorem insertItemsLoop_ok (oid : ℕ) (items : List Item) :
    ∀ (st : St) (a : Unit) (st2 : St),
      insertItemsLoop oid items st = (.ok a, st2) →
      st2.step = st.step + items.length ∧ st2.fails = st.fails ∧
      (∀ k, st.step ≤ k → k < st.step + items.length → k ∉ st.fails) := by
  induction items with
  | nil =>
    intro st a st2 h
    simp only [insertItemsLoop, mPure, Prod.mk.injEq] at h
    rw [← h.2]
    exact ⟨by simp, rfl, fun k h1 h2 => False.elim (by simp at h2; omega)⟩
  | cons it rest ih =>
    intro st a st2 h
    by_cases hf : st.step ∈ st.fails
    · have hrow : insertItemRow oid it st = (.error "SQLITE_ERROR", bump st) := by
        simp [insertItemRow, dbWrite, hf]
      simp only [insertItemsLoop, mBind, hrow] at h
      cases h
    · cases htxn : st.txn with
      | none =>
        have hrow : insertItemRow oid it st =
            (.ok (), { bump st with db := appendItemRow oid it st.db }) := by
          simp [insertItemRow, dbWrite, hf, htxn]
        simp only [insertItemsLoop, mBind, hrow] at h
        obtain ⟨h1, h2, h3⟩ := ih _ _ _ h
        refine ⟨by rw [h1]; simp [bump]; omega, h2, ?_⟩
        intro k hk1 hk2
        rcases Nat.eq_or_lt_of_le hk1 with heq | hlt
        · rw [← heq]; exact hf
        · exact h3 k hlt (by simp [bump] at hk2 ⊢; omega)
      | some t =>
        have hrow : insertItemRow oid it st =
            (.ok (), { bump st with txn := some (appendItemRow oid it t) }) := by
          simp [insertItemRow, dbWrite, hf, htxn]
        simp only [insertItemsLoop, mBind, hrow] at h
        obtain ⟨h1, h2, h3⟩ := ih _ _ _ h
        refine ⟨by rw [h1]; simp [bump]; omega, h2, ?_⟩
        intro k hk1 hk2
        rcases Nat.eq_or_lt_of_le hk1 with heq | hlt
        · rw [← heq]; exact hf
        · exact h3 k hlt (by simp [bump] at hk2 ⊢; omega)

/-- Helper: when the failure oracle hits any step up to and including the
commit, the transactional body of `createOrder` fails and the committed
store is untouched (atomicity of the transaction under the store's
commit/rollback guarantees). -/
theorem createOrderM_fail (cn tn nt : String) (items : List Item) (total : ℤ) (now : ℕ)
    (st : St) (htxn : st.txn = none)
    (hk : ∃ k ∈ st.fails, st.step ≤ k ∧ k ≤ st.step + items.length + 2) :
    ∃ e st2, createOrderM cn tn nt items total now st = (.error e, st2) ∧
      st2.db = st.db := by
  obtain ⟨k, hkmem, hk1, hk2⟩ := hk
  by_cases h0 : st.step ∈ st.fails
  · refine ⟨"SQLITE_ERROR", bump st, ?_, rfl⟩
    simp [createOrderM, mBind, runBegin, h0]
  · have hbeg : runBegin st = (.ok (), { bump st with txn := some st.db }) := by
      simp [runBegin, h0, htxn]
    by_cases h1 : st.step + 1 ∈ st.fails
    · have hrow : insertOrderRow cn tn nt total now { bump st with txn := some st.db } =
          (.error "SQLITE_ERROR", bump { bump st with txn := some st.db }) := by
        simp [insertOrderRow, dbWrite, bump, h1]
      refine ⟨"SQLITE_ERROR", bump { bump st with txn := some st.db }, ?_, rfl⟩
      simp [createOrderM, mBind, hbeg, hrow]
    · have hrow : insertOrderRow cn tn nt total now { bump st with txn := some st.db } =
          (.ok st.db.nextOrderId,
           { bump (bump st) with txn := some (appendOrderRow cn tn nt total now st.db) }) := by
        simp [insertOrderRow, dbWrite, bump, h1]
      cases hl : insertItemsLoop st.db.nextOrderId items
          { bump (bump st) with txn := some (appendOrderRow cn tn nt total now st.db) } with
      | mk r3 st3 =>
        have hinv := insertItemsLoop_inv st.db.nextOrderId items
          { bump (bump st) with txn := some (appendOrderRow cn tn nt total now st.db) } _ rfl
        rw [hl] at hinv
        obtain ⟨hdb3, hfl3, t3, htxn3⟩ := hinv
        cases r3 with
        | error e =>
          refine ⟨e, st3, ?_, hdb3⟩
          simp [createOrderM, mBind, hbeg, hrow, hl]
        | ok a =>
          obtain ⟨hstep3, _, hrange⟩ := insertItemsLoop_ok _ _ _ _ _ hl
          have hkc : k = st.step + items.length + 2 := by
            have hne0 : k ≠ st.step := fun he => h0 (he ▸ hkmem)
            have hne1 : k ≠ st.step + 1 := fun he => h1 (he ▸ hkmem)
            by_contra hne2
            exact hrange k (by simp [bump]; omega) (by simp [bump]; omega) hkmem
          have hcstep : st3.step ∈ st3.fails := by
            rw [hstep3, hfl3]
            simp [bump]
            have : st.step + 1 + 1 + items.length = st.step + items.length + 2 := by omega
            rw [this, ← hkc]
            exact hkmem
          have hcom : runCommit st3 = (.error "SQLITE_ERROR", bump st3) := by
            simp [runCommit, hcstep]
          refine ⟨"SQLITE_ERROR", bump st3, ?_, hdb3⟩
          simp [createOrderM, mBind, hbeg, hrow, hl, hcom]

/-! ## C1 — transaction failure rolls back completely -/

/-- C1: whenever the failure oracle hits any storage step of the transaction
(the BEGIN, the order-row insert, any item-row insert, or the COMMIT — that
is any step index up to `items.length + 2`), `createOrder` answers with the
InternalError response, the committed database is exactly the one from
before the call (no order row and no item rows from this submission are
visible to any subsequent read), and nothing is broadcast. -/
theorem createOrder_rollback (body : JVal) (now : ℕ) (fails : List ℕ) (db : DBState)
    (hne : normalizeItems (jand body (jfield body "items")) ≠ [])
    (hk : ∃ k ∈ fails, k ≤ (normalizeItems (jand body (jfield body "items"))).length + 2) :
    (createOrder body now fails db).1 = .internalError "เกิดข้อผิดพลาดในการบันทึกออเดอร์" ∧
    (createOrder body now fails db).2.1 = db ∧
    (createOrder body now fails db).2.2.1 = [] := by
  have hE : (normalizeItems (jand body (jfield body "items"))).isEmpty = false := by
    cases hn : normalizeItems (jand body (jfield body "items")) with
    | nil => exact absurd hn hne
    | cons a l => rfl
  obtain ⟨k, hkmem, hk2⟩ := hk
  obtain ⟨e, st2, hrun, hdb⟩ := createOrderM_fail
    (jsOrStr (sanitizeText (jand body (jfield body "customerName")) 80) "ลูกค้า")
    (sanitizeText (jand body (jfield body "tableNo")) 60)
    (sanitizeText (jand body (jfield body "note")) 300)
    (normalizeItems (jand body (jfield body "items")))
    (orderTotal (normalizeItems (jand body (jfield body "items")))) now
    { db := db, txn := none, step := 0, fails := fails } rfl
    ⟨k, hkmem, Nat.zero_le k, by simpa using hk2⟩
  refine ⟨?_, ?_, ?_⟩ <;> simp [createOrder, hE, hrun, runRollback_db, hdb]

/-- Witness for C1: the oracle fails step 2 (the first item insert) of a
two-item submission; the response is the InternalError and the database is
unchanged. -/
theorem createOrder_rollback_witness :
    (createOrder bodyNid 1000 [2] dbEmpty).1 =
      .internalError "เกิดข้อผิดพลาดในการบันทึกออเดอร์" ∧
    (createOrder bodyNid 1000 [2] dbEmpty).2.1 = dbEmpty ∧
    (createOrder bodyNid 1000 [2] dbEmpty).2.2.1 = [] :=
  createOrder_rollback bodyNid 1000 [2] dbEmpty (by decide) ⟨2, by decide, by decide⟩

/-! ## C2 — every successful mutation broadcasts the freshly re-read order -/

/-- Helper: inversion of a successful read statement. -/
theorem dbRead_ok {α : Type} (f : DBState → α) (st : St) (a : α) (st2 : St)
    (h : dbRead f st = (.ok a, st2)) :
    a = f (effState st) ∧ st2 = bump st := by
  rw [dbRead] at h
  by_cases hf : st.step ∈ st.fails
  · simp [hf] at h
  · simp [hf] at h
    exact ⟨h.1.symm, h.2.symm⟩

/-- Helper: inversion of a successful BEGIN. -/
theorem runBegin_ok (st : St) (u : Unit) (st1 : St)
    (h : runBegin st = (.ok u, st1)) (htxn : st.txn = none) :
    st1 = { bump st with txn := some st.db } := by
  rw [runBegin] at h
  by_cases hf : st.step ∈ st.fails
  · simp [hf] at h
  · rw [if_neg hf, htxn] at h
    injection h with h1 h2
    exact h2.symm

/-- Helper: inversion of a successful write statement inside an open
transaction. -/
theorem dbWrite_ok_txn {α : Type} (f : DBState → DBState × α) (st : St) (t : DBState)
    (a : α) (st1 : St)
    (h : dbWrite f st = (.ok a, st1)) (htxn : st.txn = some t) :
    a = (f t).2 ∧ st1 = { bump st with txn := some (f t).1 } := by
  rw [dbWrite] at h
  by_cases hf : st.step ∈ st.fails
  · simp [hf] at h
  · rw [if_neg hf, htxn] at h
    injection h with h1 h2
    injection h1 with h1
    exact ⟨h1.symm, h2.symm⟩

/-- Helper: inversion of a successful write statement in autocommit mode. -/
theorem dbWrite_ok_auto {α : Type} (f : DBState → DBState × α) (st : St)
    (a : α) (st1 : St)
    (h : dbWrite f st = (.ok a, st1)) (htxn : st.txn = none) :
    a = (f st.db).2 ∧ st1 = { bump st with db := (f st.db).1 } := by
  rw [dbWrite] at h
  by_cases hf : st.step ∈ st.fails
  · simp [hf] at h
  · rw [if_neg hf, htxn] at h
    injection h with h1 h2
    injection h1 with h1
    exact ⟨h1.symm, h2.symm⟩

/-- Helper: inversion of a successful COMMIT: the transaction view becomes
the committed store. -/
theorem runCommit_ok (st : St) (t : DBState) (u : Unit) (st1 : St)
    (h : runCommit st = (.ok u, st1)) (htxn : st.txn = some t) :
    st1 = { bump st with db := t, txn := none } := by
  rw [runCommit] at h
  by_cases hf : st.step ∈ st.fails
  · simp [hf] at h
  · rw [if_neg hf, htxn] at h
    injection h with h1 h2
    exact h2.symm

/-- Helper: a successful `getOrderById` outside a transaction returns the
pure read of the committed store and leaves it untouched. -/
theorem getOrderByIdM_ok (oid : ℕ) (st : St) (v : Option OrderView) (st2 : St)
    (h : getOrderByIdM oid st = (.ok v, st2)) (htxn : st.txn = none) :
    v = getOrderByIdPure st.db oid ∧ st2.db = st.db ∧ st2.txn = none := by
  have heff : effState st = st.db := by rw [effState, htxn]; rfl
  simp only [getOrderByIdM, mBind] at h
  cases h1 : dbRead (fun d => findOrderRow d oid) st with
  | mk r1 stA =>
    rw [h1] at h
    cases r1 with
    | error e => cases h
    | ok r =>
      obtain ⟨hr, hstA⟩ := dbRead_ok _ _ _ _ h1
      rw [heff] at hr
      cases r with
      | none =>
        simp only [mPure, Prod.mk.injEq, Except.ok.injEq] at h
        rw [← h.1, ← h.2, hstA]
        refine ⟨?_, rfl, htxn⟩
        rw [getOrderByIdPure, ← hr]
      | some o =>
        simp only [mBind] at h
        cases h2 : dbRead (fun d => itemsOf d oid) stA with
        | mk r2 stB =>
          rw [h2] at h
          cases r2 with
          | error e => cases h
          | ok its =>
            obtain ⟨hits, hstB⟩ := dbRead_ok _ _ _ _ h2
            have heffA : effState stA = st.db := by
              rw [hstA, effState]
              show (st.txn.getD st.db) = st.db
              rw [htxn]
              rfl
            rw [heffA] at hits
            simp only [mPure, Prod.mk.injEq, Except.ok.injEq] at h
            rw [← h.1, ← h.2, hstB, hstA]
            refine ⟨?_, rfl, htxn⟩
            rw [getOrderByIdPure, ← hr, hits]

/-- Helper: a successful transactional create-order body ends with no open
transaction and returns exactly the freshly re-read order view of the final
committed store under the new order id. -/
theorem createOrderM_ok (cn tn nt : String) (items : List Item) (total : ℤ) (now : ℕ)
    (st : St) (p : ℕ × Option OrderView) (st2 : St)
    (htxn : st.txn = none)
    (h : createOrderM cn tn nt items total now st = (.ok p, st2)) :
    p.2 = getOrderByIdPure st2.db p.1 ∧ st2.txn = none := by
  simp only [createOrderM, mBind] at h
  split at h
  case _ u st1 hb =>
    have hst1 : st1 = { bump st with txn := some st.db } := runBegin_ok _ _ _ hb htxn
    split at h
    case _ oid0 st2w hrow =>
      obtain ⟨_, hst2w⟩ := dbWrite_ok_txn _ _ st.db _ _ hrow (by rw [hst1])
      split at h
      case _ a st3 hl =>
        have hinv := insertItemsLoop_inv oid0 items st2w _ (by rw [hst2w])
        rw [hl] at hinv
        obtain ⟨_, _, t3, htxn3⟩ := hinv
        split at h
        case _ u2 st4 hcm =>
          have hst4 : st4 = { bump st3 with db := t3, txn := none } :=
            runCommit_ok _ _ _ _ hcm htxn3
          subst hst4
          split at h
          case _ v st5 hg =>
            obtain ⟨hv, hdb5, htxn5⟩ := getOrderByIdM_ok _ _ _ _ hg rfl
            simp only [mPure, Prod.mk.injEq, Except.ok.injEq] at h
            rw [← h.1, ← h.2]
            exact ⟨by rw [hv, hdb5], htxn5⟩
          case _ e st5 hg => cases h
        case _ e st4 hcm => cases h
      case _ e st3 hl => cases h
    case _ e st2w hrow => cases h
  case _ e st1 hb => cases h

/-- Helper: a successful status update that found its order returns exactly
the freshly re-read order view of the final committed store. -/
theorem updateStatusM_ok (oid : ℕ) (status : String) (now : ℕ)
    (st : St) (r : Option (Option OrderView)) (st2 : St)
    (htxn : st.txn = none)
    (h : updateStatusM oid status now st = (.ok r, st2)) :
    ∀ v, r = some v → v = getOrderByIdPure st2.db oid ∧ st2.txn = none := by
  intro v hv
  simp only [updateStatusM, mBind] at h
  split at h
  case _ ch st1 hu =>
    obtain ⟨hch0, hst1⟩ := dbWrite_ok_auto _ _ _ _ hu htxn
    by_cases hch : ch = 0
    · rw [if_pos hch] at h
      simp only [mPure, Prod.mk.injEq, Except.ok.injEq] at h
      rw [← h.1] at hv
      cases hv
    · rw [if_neg hch] at h
      simp only [mBind] at h
      split at h
      case _ v0 st5 hg =>
        obtain ⟨hv0, hdb5, htxn5⟩ := getOrderByIdM_ok _ _ _ _ hg (by rw [hst1]; exact htxn)
        simp only [mPure, Prod.mk.injEq, Except.ok.injEq] at h
        rw [← h.1] at hv
        cases hv
        rw [← h.2]
        refine ⟨?_, htxn5⟩
        rw [hv0, hdb5]
      case _ e st5 hg => cases h
  case _ e st1 hu => cases h

/-- Helper: the item-id comparison relation is total. -/
instance : IsTotal ItemRow (fun a b => a.id ≤ b.id) :=
  ⟨fun a b => Nat.le_total a.id b.id⟩

/-- Helper: the item-id comparison relation is transitive. -/
instance : IsTrans ItemRow (fun a b => a.id ≤ b.id) :=
  ⟨fun _ _ _ hab hbc => Nat.le_trans hab hbc⟩

/-- Helper: the items attached to an order view are sorted ascending by id,
as the `ORDER BY id ASC` of the read path demands. -/
theorem itemsOf_sorted (d : DBState) (oid : ℕ) :
    List.Sorted (fun a b => a.id ≤ b.id) (itemsOf d oid) := by
  rw [itemsOf]
  exact List.sorted_insertionSort _ _

/-- Helper: a found order view carries exactly the sorted item rows of its
order. -/
theorem getOrderByIdPure_items (d : DBState) (oid : ℕ) (w : OrderView)
    (h : getOrderByIdPure d oid = some w) : w.items = itemsOf d oid := by
  rw [getOrderByIdPure] at h
  cases hf : findOrderRow d oid with
  | none => rw [hf] at h; cases h
  | some o =>
    rw [hf] at h
    injection h with h2
    rw [← h2]

/-- C2: every successful `createOrder` broadcasts exactly one event whose
payload order is the order freshly re-read from the committed store after
the mutation, and every successful `updateStatus` likewise broadcasts
exactly one event carrying the freshly re-read order (the same view the
response returns); in both cases the attached items are in insertion order
(ascending item id). -/
theorem broadcast_payload_fresh :
    (∀ (body : JVal) (now : ℕ) (fails : List ℕ) (db : DBState) (oid : ℕ) (t : ℤ),
       (createOrder body now fails db).1 = .created oid t →
       (createOrder body now fails db).2.2.1 =
         [{ event := "order", type := "order_created",
            order := getOrderByIdPure (createOrder body now fails db).2.1 oid }] ∧
       (∀ w, getOrderByIdPure (createOrder body now fails db).2.1 oid = some w →
          List.Sorted (fun a b => a.id ≤ b.id) w.items)) ∧
    (∀ (idRaw : String) (body : JVal) (now : ℕ) (fails : List ℕ) (db : DBState)
       (msg : String) (v : Option OrderView),
       (updateStatus idRaw body now fails db).1 = .okOrder msg v →
       ∃ oid,
         (updateStatus idRaw body now fails db).2.2.1 =
           [{ event := "order", type := "order_updated",
              order := getOrderByIdPure (updateStatus idRaw body now fails db).2.1 oid }] ∧
         v = getOrderByIdPure (updateStatus idRaw body now fails db).2.1 oid ∧
         (∀ w, v = some w → List.Sorted (fun a b => a.id ≤ b.id) w.items)) := by
  constructor
  · intro body now fails db oid t h
    cases hE : (normalizeItems (jand body (jfield body "items"))).isEmpty with
    | true => rw [show createOrder body now fails db =
        (.badRequest "ไม่มีรายการสินค้าในออเดอร์", db, [], 0) by simp [createOrder, hE]] at h; cases h
    | false =>
      cases hm : createOrderM
          (jsOrStr (sanitizeText (jand body (jfield body "customerName")) 80) "ลูกค้า")
          (sanitizeText (jand body (jfield body "tableNo")) 60)
          (sanitizeText (jand body (jfield body "note")) 300)
          (normalizeItems (jand body (jfield body "items")))
          (orderTotal (normalizeItems (jand body (jfield body "items")))) now
          { db := db, txn := none, step := 0, fails := fails } with
      | mk rm stm =>
        cases rm with
        | error e =>
          rw [show createOrder body now fails db =
              (.internalError "เกิดข้อผิดพลาดในการบันทึกออเดอร์", ((runRollback stm).2).db, [],
               ((runRollback stm).2).step) by simp [createOrder, hE, hm]] at h
          cases h
        | ok p =>
          have hco : createOrder body now fails db =
              (.created p.1 (orderTotal (normalizeItems (jand body (jfield body "items")))),
               stm.db, [{ event := "order", type := "order_created", order := p.2 }],
               stm.step) := by
            simp [createOrder, hE, hm]
          obtain ⟨hfresh, _⟩ := createOrderM_ok _ _ _ _ _ _ _ _ _ rfl hm
          rw [hco] at h
          simp only [ApiResp.created.injEq] at h
          rw [hco]
          constructor
          · simp only [List.cons.injEq, and_true]
            rw [hfresh, h.1]
          · intro w hw
            rw [getOrderByIdPure_items _ _ _ hw]
            exact itemsOf_sorted _ _
  · intro idRaw body now fails db msg v h
    cases hq : parseNumLit idRaw with
    | none =>
      rw [show updateStatus idRaw body now fails db =
          (.badRequest "order id ไม่ถูกต้อง", db, [], 0) by simp [updateStatus, hq]] at h
      cases h
    | some q =>
      by_cases hint : q.den ∣ q.num ∧ 0 < q.num
      · by_cases hst : jsToLower (sanitizeText (jand body (jfield body "status")) 40) ∈ orderStatuses
        · cases hm : updateStatusM ((q.num / q.den).toNat)
              (jsToLower (sanitizeText (jand body (jfield body "status")) 40)) now
              { db := db, txn := none, step := 0, fails := fails } with
          | mk rm stm =>
            cases rm with
            | error e =>
              rw [show updateStatus idRaw body now fails db =
                  (.internalError "อัปเดตสถานะไม่สำเร็จ", stm.db, [], stm.step) by
                simp [updateStatus, hq, hint, hst, hm]] at h
              cases h
            | ok r =>
              cases r with
              | none =>
                rw [show updateStatus idRaw body now fails db =
                    (.notFound "ไม่พบออเดอร์", stm.db, [], stm.step) by
                  simp [updateStatus, hq, hint, hst, hm]] at h
                cases h
              | some v0 =>
                have hco : updateStatus idRaw body now fails db =
                    (.okOrder "อัปเดตสถานะสำเร็จ" v0, stm.db,
                     [{ event := "order", type := "order_updated", order := v0 }],
                     stm.step) := by
                  simp [updateStatus, hq, hint, hst, hm]
                obtain ⟨hfresh, _⟩ := updateStatusM_ok _ _ _ _ _ _ rfl hm v0 rfl
                rw [hco] at h
                simp only [ApiResp.okOrder.injEq] at h
                refine ⟨(q.num / q.den).toNat, ?_, ?_, ?_⟩
                · rw [hco]
                  simp only [List.cons.injEq, and_true]
                  rw [hfresh]
                · rw [hco, ← h.2, hfresh]
                · intro w hw
                  rw [← h.2] at hw
                  rw [hfresh] at hw
                  rw [getOrderByIdPure_items _ _ _ hw]
                  exact itemsOf_sorted _ _
        · rw [show updateStatus idRaw body now fails db =
              (.badRequest "สถานะไม่ถูกต้อง", db, [], 0) by simp [updateStatus, hq, hint, hst]] at h
          cases h
      · rw [show updateStatus idRaw body now fails db =
            (.badRequest "order id ไม่ถูกต้อง", db, [], 0) by simp [updateStatus, hq, hint]] at h
        cases h

/-- A database holding one committed pending order with one item, as left by
a successful single-item `createOrder`. -/
def dbOne : DBState :=
  { orders := [{ id := 1, customerName := "ลูกค้า", tableNo := "", note := "",
                 status := "pending", total := 30, createdAt := 777, updatedAt := 777 }],
    orderItems := [{ id := 1, orderId := 1, name := "Tea", price := 15, qty := 2, image := "" }],
    nextOrderId := 2, nextItemId := 2 }

/-- The order view read back after the witness status update. -/
def vServed : OrderView :=
  { row := { id := 1, customerName := "ลูกค้า", tableNo := "", note := "",
             status := "served", total := 30, createdAt := 777, updatedAt := 2000 },
    items := [{ id := 1, orderId := 1, name := "Tea", price := 15, qty := 2, image := "" }] }

/-- Witness for C2 at a concrete successful order creation and a concrete
successful status update. -/
theorem broadcast_payload_fresh_witness :
    ((createOrder bodyNid 1000 [] dbEmpty).2.2.1 =
       [{ event := "order", type := "order_created",
          order := getOrderByIdPure (createOrder bodyNid 1000 [] dbEmpty).2.1 1 }] ∧
     (∀ w, getOrderByIdPure (createOrder bodyNid 1000 [] dbEmpty).2.1 1 = some w →
        List.Sorted (fun a b => a.id ≤ b.id) w.items)) ∧
    (∃ oid,
       (updateStatus "1" (.obj [("status", .str "served")]) 2000 [] dbOne).2.2.1 =
         [{ event := "order", type := "order_updated",
            order := getOrderByIdPure
              (updateStatus "1" (.obj [("status", .str "served")]) 2000 [] dbOne).2.1 oid }] ∧
       some vServed =
         getOrderByIdPure
           (updateStatus "1" (.obj [("status", .str "served")]) 2000 [] dbOne).2.1 oid ∧
       (∀ w, some vServed = some w → List.Sorted (fun a b => a.id ≤ b.id) w.items)) :=
  ⟨broadcast_payload_fresh.1 bodyNid 1000 [] dbEmpty 1 135 (by decide),
   broadcast_payload_fresh.2 "1" (.obj [("status", .str "served")]) 2000 [] dbOne
     "อัปเดตสถานะสำเร็จ" (some vServed) (by decide)⟩

/-! ## C4 — item normalization bounds and the order total -/

/-- Helper: the sanitized text of a field is at most the cap long. -/
theorem sanitizeText_length (v : JVal) (n : ℕ) (hn : n ≠ 0) :
    (sanitizeText v n).length ≤ n := by
  rw [sanitizeText]
  simp only [hn, if_false]
  rw [List.length_asString]
  exact le_trans (List.length_take_le n _) (le_refl n)

/-- Helper: every member of a normalized item list is the normalization of
some raw element and kept only with a non-empty name. -/
theorem normalizeItems_mem {raw : JVal} {it : Item} (h : it ∈ normalizeItems raw) :
    (∃ x, it = normalizeOne x) ∧ it.name ≠ "" := by
  cases raw <;> simp only [normalizeItems] at h
  case arr xs =>
    rw [List.mem_filter] at h
    rcases List.mem_map.mp h.1 with ⟨x, _, hx⟩
    refine ⟨⟨x, hx.symm⟩, ?_⟩
    have := h.2
    simpa using this
  all_goals cases h

/-- Helper: bounds satisfied by every normalized item. -/
theorem normalizeOne_bounds (x : JVal) :
    (normalizeOne x).name.length ≤ 120 ∧
    0 ≤ (normalizeOne x).price ∧
    (∃ q : JNum, (normalizeOne x).price = max 0 (jsRound q)) ∧
    1 ≤ (normalizeOne x).qty ∧ (normalizeOne x).qty ≤ 99 := by
  refine ⟨sanitizeText_length _ 120 (by omega), le_max_left 0 _, ⟨_, rfl⟩, le_max_left 1 _, ?_⟩
  exact max_le (by omega) (min_le_left 99 _)

/-- Helper: a left fold of additions equals the sum of the mapped list. -/
theorem foldl_add_eq_sum (f : Item → ℤ) :
    ∀ (l : List Item) (a : ℤ), l.foldl (fun s it => s + f it) a = a + (l.map f).sum
  | [], a => by simp
  | it :: rest, a => by
    rw [List.foldl_cons, foldl_add_eq_sum f rest (a + f it)]
    simp [add_assoc]

/-- C4: every item surviving normalization has a non-empty name of at most
120 characters, a price of the form `max 0 (round p)` (hence a non-negative
integer), and an integer qty in [1, 99]; raw items whose name normalizes to
non-empty survive normalization even alongside dropped ones (dropping, not
rejecting); and the order total is the sum of `price * qty` over the
normalized items and is a non-negative integer. -/
theorem normalizeItems_bounds_total (raw : JVal) :
    (∀ it ∈ normalizeItems raw,
        it.name ≠ "" ∧ it.name.length ≤ 120 ∧ 0 ≤ it.price ∧
        (∃ q : JNum, it.price = max 0 (jsRound q)) ∧ 1 ≤ it.qty ∧ it.qty ≤ 99) ∧
    (∀ xs, raw = JVal.arr xs → ∀ x ∈ xs, (normalizeOne x).name ≠ "" →
        normalizeOne x ∈ normalizeItems raw) ∧
    orderTotal (normalizeItems raw) =
      ((normalizeItems raw).map (fun it => it.price * it.qty)).sum ∧
    0 ≤ orderTotal (normalizeItems raw) := by
  have hmem : ∀ it ∈ normalizeItems raw,
      it.name ≠ "" ∧ it.name.length ≤ 120 ∧ 0 ≤ it.price ∧
      (∃ q : JNum, it.price = max 0 (jsRound q)) ∧ 1 ≤ it.qty ∧ it.qty ≤ 99 := by
    intro it hit
    rcases normalizeItems_mem hit with ⟨⟨x, hx⟩, hname⟩
    rcases normalizeOne_bounds x with ⟨hlen, hpr, hq, hq1, hq99⟩
    exact ⟨hname, by rw [hx]; exact hlen, by rw [hx]; exact hpr,
      by rw [hx]; exact hq, by rw [hx]; exact hq1, by rw [hx]; exact hq99⟩
  have hsum : orderTotal (normalizeItems raw) =
      ((normalizeItems raw).map (fun it => it.price * it.qty)).sum := by
    rw [orderTotal, foldl_add_eq_sum (fun it => it.price * it.qty) _ 0, zero_add]
  refine ⟨hmem, ?_, hsum, ?_⟩
  · intro xs hxs x hx hname
    rw [hxs, normalizeItems, List.mem_filter]
    exact ⟨List.mem_map.mpr ⟨x, hx, rfl⟩, by simpa using hname⟩
  · rw [hsum]
    apply List.sum_nonneg
    intro z hz
    rcases List.mem_map.mp hz with ⟨it, hit, hz2⟩
    rcases hmem it hit with ⟨_, _, hpr, _, hq1, _⟩
    rw [← hz2]
    exact mul_nonneg hpr (le_trans (by omega) hq1)

/-- Witness for C4 at a concrete raw item list containing one valid item and
one blank-named item. -/
theorem normalizeItems_bounds_total_witness :
    ((normalizeOne (.obj [("name", .str "Tea"), ("price", .num { num := 15, den := 1 }),
        ("qty", .num { num := 2, den := 1 })])).name ≠ "" ∧
     (normalizeOne (.obj [("name", .str "Tea"), ("price", .num { num := 15, den := 1 }),
        ("qty", .num { num := 2, den := 1 })])).name.length ≤ 120 ∧
     0 ≤ (normalizeOne (.obj [("name", .str "Tea"), ("price", .num { num := 15, den := 1 }),
        ("qty", .num { num := 2, den := 1 })])).price ∧
     (∃ q : JNum, (normalizeOne (.obj [("name", .str "Tea"), ("price", .num { num := 15, den := 1 }),
        ("qty", .num { num := 2, den := 1 })])).price = max 0 (jsRound q)) ∧
     1 ≤ (normalizeOne (.obj [("name", .str "Tea"), ("price", .num { num := 15, den := 1 }),
        ("qty", .num { num := 2, den := 1 })])).qty ∧
     (normalizeOne (.obj [("name", .str "Tea"), ("price", .num { num := 15, den := 1 }),
        ("qty", .num { num := 2, den := 1 })])).qty ≤ 99) ∧
    0 ≤ orderTotal (normalizeItems (.arr
      [.obj [("name", .str "Tea"), ("price", .num { num := 15, den := 1 }),
             ("qty", .num { num := 2, den := 1 })],
       .obj [("name", .str ""), ("price", .num { num := 10, den := 1 })]])) :=
  ⟨(normalizeItems_bounds_total (.arr
      [.obj [("name", .str "Tea"), ("price", .num { num := 15, den := 1 }),
             ("qty", .num { num := 2, den := 1 })],
       .obj [("name", .str ""), ("price", .num { num := 10, den := 1 })]])).1
      _ (by decide),
   (normalizeItems_bounds_total (.arr
      [.obj [("name", .str "Tea"), ("price", .num { num := 15, den := 1 }),
             ("qty", .num { num := 2, den := 1 })],
       .obj [("name", .str ""), ("price", .num { num := 10, den := 1 })]])).2.2.2⟩
